import Mathlib

/-!
Verification development for the PYBOSSA task scheduler and locking subsystem
(pybossa/sched.py and the scheduler-facing parts of pybossa/api).

The relational store is modelled as in-memory lists of records; SQL queries of
the source are translated into list filters, stable sorts and take/drop for
LIMIT/OFFSET.  Python truthiness of the optional identity fields is modelled
explicitly (None and 0 and the empty string are falsy).  SQL equality against
NULL is modelled by sqlEqN (NULL never compares equal).  The redis-backed
LockManager lives outside these sources and is modelled from the spec, see
lm_acquire_lock below.
-/

namespace Pybossa

/-- A task record (pybossa/model/task.py as used by the scheduler). -/
structure Task where
  id : Nat
  project_id : Nat
  state : String
  n_answers : Int
  priority_0 : Int
  created : Nat
  fav_user_ids : List Nat
  info : List (String × String)
deriving DecidableEq, Inhabited

/-- A task-run record: one identity's answer for a task. -/
structure TaskRun where
  id : Nat
  task_id : Nat
  project_id : Nat
  user_id : Option Nat
  user_ip : Option String
  external_uid : Option String
  finish_time : Nat
  info : String
deriving DecidableEq, Inhabited

/-- Denormalised per-task tally of task runs (pybossa/model/counter.py). -/
structure Counter where
  task_id : Nat
  n_task_runs : Nat
deriving DecidableEq, Inhabited

/-- Project metadata consulted by the API layer. -/
structure Project where
  id : Nat
  allow_anonymous_contributors : Bool
  info_sched : Option String
deriving DecidableEq, Inhabited

/-- The relational store visible to the scheduler. -/
structure DB where
  projects : List Project
  tasks : List Task
  task_runs : List TaskRun
  counters : List Counter
deriving DecidableEq, Inhabited

/-- Python truthiness of an optional integer (None and 0 are falsy). -/
def truthyN : Option Nat → Bool
  | some n => n != 0
  | none => false

/-- Python truthiness of an optional string (None and the empty string are falsy). -/
def truthyS : Option String → Bool
  | some s => s != ""
  | none => false

/-- SQL equality between nullable integer columns: NULL never compares equal. -/
def sqlEqN : Option Nat → Option Nat → Bool
  | some a, some b => a == b
  | _, _ => false

/-- Stable insertion into a sorted list (used to model SQL ORDER BY). -/
def insertOrdBy {α : Type} (le : α → α → Bool) (a : α) : List α → List α
  | [] => [a]
  | b :: l => if le a b then a :: b :: l else b :: insertOrdBy le a l

/-- Stable insertion sort, modelling SQL ORDER BY over a result list. -/
def insertionSortBy {α : Type} (le : α → α → Bool) : List α → List α
  | [] => []
  | a :: l => insertOrdBy le a (insertionSortBy le l)

/-- The allow-listed ordering fields accepted by the schedulers. -/
inductive OrderBy where
  | id
  | priority_0
  | created
  | fav_user_ids
deriving DecidableEq, Inhabited

/-- Derived favourite count: coalesce(array_length(fav_user_ids, 1), 0). -/
def n_favs (t : Task) : Nat := t.fav_user_ids.length

/-- The plain column used as sort key by _set_orderby_desc. -/
def orderKey : OrderBy → Task → Int
  | .id, t => t.id
  | .priority_0, t => t.priority_0
  | .created, t => t.created
  | .fav_user_ids, t => n_favs t

/-- _set_orderby_desc of pybossa/sched.py: attach the requested ORDER BY to a query. -/
def set_orderby_desc (orderby : OrderBy) (descending : Bool) (ts : List Task) : List Task :=
  match orderby with
  | .fav_user_ids =>
    if descending then insertionSortBy (fun a b => decide (n_favs b ≤ n_favs a)) ts
    else insertionSortBy (fun a b => decide (n_favs a ≤ n_favs b)) ts
  | ob =>
    if descending then insertionSortBy (fun a b => decide (orderKey ob b ≤ orderKey ob a)) ts
    else insertionSortBy (fun a b => decide (orderKey ob a ≤ orderKey ob b)) ts

/-- The TaskRun subquery that selects the exclusion channel.  This block appears
verbatim both in get_breadth_first_task and in get_candidate_task_ids of
pybossa/sched.py: user_id is used only when it is truthy and both user_ip and
external_uid are falsy; otherwise a falsy user_ip is replaced by 127.0.0.1 and
a truthy external_uid takes priority over the ip. -/
def candidateSubquery (project_id : Nat) (user_id : Option Nat)
    (user_ip external_uid : Option String) : TaskRun → Bool :=
  if truthyN user_id && !truthyS user_ip && !truthyS external_uid then
    fun tr => tr.project_id == project_id && tr.user_id == user_id
  else
    let user_ip := if !truthyS user_ip then some "127.0.0.1" else user_ip
    if truthyS user_ip && !truthyS external_uid then
      fun tr => tr.project_id == project_id && tr.user_ip == user_ip
    else
      fun tr => tr.project_id == project_id && tr.external_uid == external_uid

/-- The three mutually exclusive identity channels of the spec (section 3). -/
inductive Identity where
  | registered (u : Nat)
  | anonymous (ip : String)
  | external (e : String)
deriving DecidableEq

/-- Well-formed single-channel identity: the carried value is truthy. -/
def wfIdentity : Identity → Prop
  | .registered u => u ≠ 0
  | .anonymous ip => ip ≠ ""
  | .external e => e ≠ ""

/-- The (user_id, user_ip, external_uid) argument triple of an identity. -/
def identityArgs : Identity → Option Nat × Option String × Option String
  | .registered u => (some u, none, none)
  | .anonymous ip => (none, some ip, none)
  | .external e => (none, none, some e)

/-- A TaskRun submitted by exactly this identity. -/
def attemptedBy (i : Identity) (tr : TaskRun) : Bool :=
  match i with
  | .registered u => tr.user_id == some u
  | .anonymous ip => tr.user_ip == some ip
  | .external e => tr.external_uid == some e

/-- The channel that candidateSubquery actually filters on, written with the
same branch structure as the source. -/
def selChannel (user_id : Option Nat) (user_ip external_uid : Option String) : Identity :=
  if truthyN user_id && !truthyS user_ip && !truthyS external_uid then
    .registered (user_id.getD 0)
  else
    let user_ip := if !truthyS user_ip then some "127.0.0.1" else user_ip
    if truthyS user_ip && !truthyS external_uid then .anonymous (user_ip.getD "")
    else .external (external_uid.getD "")

/-- get_candidate_task_ids of pybossa/sched.py: all available tasks for a given
project and identity, excluding completed tasks and tasks whose id occurs in
the identity-channel subquery, ordered, then OFFSET/LIMIT applied. -/
def get_candidate_task_ids (db : DB) (project_id : Nat) (user_id : Option Nat)
    (user_ip external_uid : Option String) (limit offset : Nat)
    (orderby : OrderBy) (descending : Bool) : List Task :=
  let excluded := (db.task_runs.filter (candidateSubquery project_id user_id user_ip external_uid)).map
    (fun tr => tr.task_id)
  let rows := db.tasks.filter (fun t =>
    !(excluded.contains t.id) && t.project_id == project_id && t.state != "completed")
  ((set_orderby_desc orderby descending rows).drop offset).take limit

/-- get_depth_first_task of pybossa/sched.py. -/
def get_depth_first_task (db : DB) (project_id : Nat) (user_id : Option Nat)
    (user_ip external_uid : Option String) (offset limit : Nat)
    (orderby : OrderBy) (descending : Bool) : List Task :=
  get_candidate_task_ids db project_id user_id user_ip external_uid limit offset orderby descending

/-- get_breadth_first_task of pybossa/sched.py: tasks of the project not yet
attempted by the identity, joined with Counter, ordered by total task-run
count ascending and then by the requested field. -/
def get_breadth_first_task (db : DB) (project_id : Nat) (user_id : Option Nat)
    (user_ip external_uid : Option String) (offset limit : Nat)
    (orderby : OrderBy) (descending : Bool) : List Task :=
  let project_query := (db.tasks.filter (fun t =>
    t.project_id == project_id && t.state != "completed")).map (fun t => t.id)
  let subquery := (db.task_runs.filter
    (candidateSubquery project_id user_id user_ip external_uid)).map (fun tr => tr.task_id)
  let tmp := project_query.filter (fun i => !(subquery.contains i))
  let n_task_runs : Task → Nat := fun t =>
    ((db.counters.filter (fun c => c.task_id == t.id)).map (fun c => c.n_task_runs)).sum
  let rows := db.tasks.filter (fun t =>
    db.counters.any (fun c => c.task_id == t.id) && tmp.contains t.id)
  ((insertionSortBy (fun a b => decide (n_task_runs a ≤ n_task_runs b))
    (set_orderby_desc orderby descending rows)).drop offset).take limit

/-- Replacement of a key in a Python dict (info payloads). -/
def dictSet (k v : String) (d : List (String × String)) : List (String × String) :=
  (k, v) :: d.filter (fun p => p.1 != k)

/-- The last-answer block of get_incremental_task: latest TaskRun for the task
by finish time, any identity, stored under the last_answer key of the info. -/
def attachLastAnswer (db : DB) (task : Task) : Task :=
  let q := insertionSortBy (fun a b => decide (b.finish_time ≤ a.finish_time))
    (db.task_runs.filter (fun tr => tr.task_id == task.id))
  match q.head? with
  | some last_task_run => { task with info := dictSet "last_answer" last_task_run.info task.info }
  | none => task

/-- get_incremental_task of pybossa/sched.py.  The randrange argument models
random.randrange: it is given the number of remaining candidates and returns
the chosen index (the source raises IndexError on an out-of-range index, which
random.randrange never produces; out of that range the model yields a default). -/
def get_incremental_task (db : DB) (project_id : Nat) (user_id : Option Nat)
    (user_ip external_uid : Option String) (offset limit : Nat)
    (orderby : OrderBy) (descending : Bool) (randrange : Nat → Nat) : Option (List Task) :=
  let candidate_tasks := get_candidate_task_ids db project_id user_id user_ip external_uid
    limit offset .priority_0 true
  let total_remaining := candidate_tasks.length
  if total_remaining == 0 then none
  else
    let rand := randrange total_remaining
    let task := candidate_tasks.getD rand default
    some [attachLastAnswer db task]

/-- ContributionsGuard.STAMP_TTL.  Modelled from the spec: the contributions
guard is an external collaborator; the lock TTL is a fixed duration shared
with the presented-time stamping subsystem. -/
def STAMP_TTL : Nat := 3600

/-- TIMEOUT of pybossa/sched.py. -/
def TIMEOUT : Nat := STAMP_TTL

/-- A lease held in the fast store: resource key, holder identity, expiry instant. -/
structure Lease where
  key : String
  holder : Option Nat
  expiry : Nat
deriving DecidableEq, Inhabited

/-- The state of the fast key-value store holding the leases. -/
structure LMState where
  leases : List Lease
deriving DecidableEq, Inhabited

/-- The empty lock store. -/
def emptyLM : LMState := ⟨[]⟩

/-- The distinct identities holding a non-expired lease on a key at an instant. -/
def holdersOf (s : LMState) (key : String) (now : Nat) : Finset (Option Nat) :=
  ((s.leases.filter (fun l => l.key == key && decide (now < l.expiry))).map
    (fun l => l.holder)).toFinset

/-- Modelled from the spec: LockManager.acquire_lock of the pybossa redis_lock
module, which is not among these sources.  Spec section 4.1: grant a lease if
the count of currently non-expired, distinct-identity leases on the key is
strictly less than the quota; idempotent for an identity already holding a
lease (re-acquiring refreshes the TTL and does not double-count); return false
when the quota is already met by other identities.  The check-then-set is
atomic per the spec, so one call is one step. -/
def lm_acquire_lock (s : LMState) (now : Nat) (resource_id : String)
    (client_id : Option Nat) (limit : Int) : Bool × LMState :=
  let hs := holdersOf s resource_id now
  if client_id ∈ hs then
    (true, ⟨⟨resource_id, client_id, now + TIMEOUT⟩ ::
      s.leases.filter (fun l => !(l.key == resource_id && l.holder == client_id))⟩)
  else if (hs.card : Int) < limit then
    (true, ⟨⟨resource_id, client_id, now + TIMEOUT⟩ :: s.leases⟩)
  else (false, s)

/-- Modelled from the spec: LockManager.has_lock — a non-expired lease for the
identity on the key exists. -/
def lm_has_lock (s : LMState) (now : Nat) (resource_id : String)
    (client_id : Option Nat) : Bool :=
  decide (client_id ∈ holdersOf s resource_id now)

/-- Modelled from the spec: LockManager.release_lock — delete the identity's
lease on the key; no-op when absent. -/
def lm_release_lock (s : LMState) (resource_id : String) (client_id : Option Nat) : LMState :=
  ⟨s.leases.filter (fun l => !(l.key == resource_id && l.holder == client_id))⟩

/-- get_key of pybossa/sched.py (KEY_PREFIX formatted with project and task id). -/
def get_key (project_id task_id : Nat) : String :=
  "pybossa:project:task_requested:timestamps:" ++ toString project_id ++ ":" ++ toString task_id

/-- acquire_lock of pybossa/sched.py. -/
def acquire_lock (project_id task_id : Nat) (user_id : Option Nat) (limit : Int)
    (s : LMState) (now : Nat) : Bool × LMState :=
  lm_acquire_lock s now (get_key project_id task_id) user_id limit

/-- has_lock of pybossa/sched.py. -/
def has_lock (project_id task_id : Nat) (user_id : Option Nat) (s : LMState) (now : Nat) : Bool :=
  lm_has_lock s now (get_key project_id task_id) user_id

/-- release_lock of pybossa/sched.py. -/
def release_lock (project_id task_id : Nat) (user_id : Option Nat) (s : LMState) : LMState :=
  lm_release_lock s (get_key project_id task_id) user_id

/-- A trace of acquire calls (time, identity) against one key with one quota,
starting in a given store state. -/
def runAcquires (key : String) (quota : Int) : List (Nat × Option Nat) → LMState → LMState
  | [], s => s
  | e :: evs, s => runAcquires key quota evs (lm_acquire_lock s e.1 key e.2 quota).2

/-- Comparator of the locked-policy candidate query: priority_0 DESC, id ASC. -/
def lockedLe (a b : Task) : Bool :=
  decide (b.priority_0 < a.priority_0) ||
    (a.priority_0 == b.priority_0 && decide (a.id ≤ b.id))

/-- The SQL text of get_locked_task: for each incomplete task of the project
with no task_run by this user_id (SQL NULL semantics: an absent user_id
matches nothing), its id, its total task_run count from the LEFT JOIN, and its
n_answers, ordered by priority_0 DESC then id ASC, LIMIT 10. -/
def lockedCandidates (db : DB) (project_id : Nat) (user_id : Option Nat) :
    List (Nat × Nat × Int) :=
  let rows := db.tasks.filter (fun t =>
    !(db.task_runs.any (fun tr =>
      tr.project_id == project_id && sqlEqN tr.user_id user_id && tr.task_id == t.id)) &&
    t.project_id == project_id && t.state != "completed")
  ((insertionSortBy lockedLe rows).take 10).map (fun t =>
    (t.id, (db.task_runs.filter (fun tr => tr.task_id == t.id)).length, t.n_answers))

/-- session.query(Task).get(task_id), wrapped in the singleton list the source returns. -/
def taskById (db : DB) (task_id : Nat) : List Task :=
  match db.tasks.find? (fun t => t.id == task_id) with
  | some t => [t]
  | none => []

/-- The for-loop of get_locked_task: walk the candidate rows; on a successful
lock acquisition return the task when skipped equals the offset and otherwise
increment skipped; a failed acquisition is passed over without counting. -/
def lockedLoop (db : DB) (project_id : Nat) (user_id : Option Nat) (offset now : Nat) :
    List (Nat × Nat × Int) → Nat → LMState → Except Unit (Option (List Task)) × LMState
  | [], _, s => (Except.ok none, s)
  | (task_id, taskcount, n_answers) :: rest, skipped, s =>
    let remaining : Int := n_answers - taskcount
    let r := acquire_lock project_id task_id user_id remaining s now
    if r.1 then
      if skipped == offset then (Except.ok (some (taskById db task_id)), r.2)
      else lockedLoop db project_id user_id offset now rest (skipped + 1) r.2
    else lockedLoop db project_id user_id offset now rest skipped r.2

/-- get_locked_task of pybossa/sched.py.  BadRequest is the error case of the
Except; the lock-store state is threaded and returned. -/
def get_locked_task (db : DB) (s : LMState) (now : Nat) (project_id : Nat)
    (user_id : Option Nat) (user_ip external_uid : Option String)
    (limit offset : Nat) (orderby : OrderBy) (descending : Bool) :
    Except Unit (Option (List Task)) × LMState :=
  if offset > 2 then (Except.error (), s)
  else lockedLoop db project_id user_id offset now (lockedCandidates db project_id user_id) 0 s

/-- The candidate rows whose lock acquisition succeeds, in loop order, with the
store state threaded exactly as the loop threads it. -/
def lockSuccesses (project_id : Nat) (user_id : Option Nat) (now : Nat) :
    List (Nat × Nat × Int) → LMState → List Nat
  | [], _ => []
  | (task_id, taskcount, n_answers) :: rest, s =>
    let r := acquire_lock project_id task_id user_id (n_answers - taskcount) s now
    if r.1 then task_id :: lockSuccesses project_id user_id now rest r.2
    else lockSuccesses project_id user_id now rest r.2

/-- The locked-policy loop as the spec words of claim C2 describe it: the
skipped count tallies lock acquisitions that failed due to quota exhaustion,
and a successful acquisition returns the task exactly when that count equals
the offset.  This definition follows the claim, not the source; it exists to
be compared with lockedLoop. -/
def lockedLoopClaim (db : DB) (project_id : Nat) (user_id : Option Nat) (offset now : Nat) :
    List (Nat × Nat × Int) → Nat → LMState → Option (List Task)
  | [], _, _ => none
  | (task_id, taskcount, n_answers) :: rest, skipped, s =>
    let r := acquire_lock project_id task_id user_id ((n_answers : Int) - taskcount) s now
    if r.1 then
      if skipped == offset then some (taskById db task_id)
      else lockedLoopClaim db project_id user_id offset now rest skipped r.2
    else lockedLoopClaim db project_id user_id offset now rest (skipped + 1) r.2

/-- A JSON value, as produced by the api layer. -/
inductive Json where
  | null
  | str (s : String)
  | num (n : Int)
  | obj (fields : List (String × Json))
  | arr (elems : List Json)

/-- task.dictize() as serialised by the new_task endpoint. -/
def dictize (t : Task) : Json :=
  .obj [("id", .num t.id), ("project_id", .num t.project_id), ("state", .str t.state),
    ("n_answers", .num t.n_answers), ("priority_0", .num t.priority_0),
    ("created", .num t.created),
    ("fav_user_ids", .arr (t.fav_user_ids.map (fun u => .num u))),
    ("info", .obj (t.info.map (fun p => (p.1, .str p.2))))]

/-- The response encoding of the new_task endpoint of pybossa/api: None or an
empty list serialise as an empty object, a single task as one object, several
tasks as an array. -/
def new_task_response (tasks : Option (List Task)) : Json :=
  match tasks with
  | some ts =>
    let data := ts.map dictize
    if data.length == 0 then .obj []
    else if data.length == 1 then data.headD (.obj [])
    else .arr data
  | none => .obj []

/-- The outcomes of _retrieve_new_task of pybossa/api up to the scheduler
dispatch: NotFound raised, a jwt authorisation Response, a list of tasks
returned through the normal channel, or the argument tuple handed to
sched.new_task. -/
inductive RetrieveResult where
  | notFound
  | authFailure
  | tasks (ts : List Task)
  | dispatch (sched : Option String) (user_id : Option Nat) (user_ip : Option String)
      (external_uid : Option String) (offset limit : Nat) (orderby : OrderBy)
      (descending : Bool)
deriving DecidableEq

/-- _retrieve_new_task of pybossa/api, up to the call into sched.new_task.
Request arguments are the optional query parameters; anon is
current_user.is_anonymous(); jwtOk the outcome of jwt_authorize_project. -/
def retrieve_new_task (db : DB) (project_id : Nat) (anon : Bool) (remote_addr : String)
    (current_user_id : Nat) (jwtOk : Bool) (external_uid_arg : Option String)
    (limit_arg offset_arg : Option Nat) (orderby_arg : Option OrderBy)
    (desc_arg : Option Bool) : RetrieveResult :=
  match db.projects.find? (fun p => p.id == project_id) with
  | none => .notFound
  | some project =>
    if !project.allow_anonymous_contributors && anon then
      .tasks [{ (default : Task) with
        info := [("error", "This project does not allow anonymous contributors")] }]
    else if truthyS external_uid_arg && !jwtOk then .authFailure
    else
      let limit := match limit_arg with | some l => l | none => 1
      let limit := if limit > 100 then 100 else limit
      let offset := match offset_arg with | some o => o | none => 0
      let orderby := match orderby_arg with | some o => o | none => OrderBy.id
      let descending := match desc_arg with | some b => b | none => false
      let user_id := if anon then none else some current_user_id
      let user_ip := if anon then some remote_addr else none
      .dispatch project.info_sched user_id user_ip external_uid_arg offset limit
        orderby descending

/-- Claim C3 formalised as stated for the locked policy: a task returned by
get_locked_task to an anonymous ip identity is never one that identity already
attempted. -/
def lockedExcludesExactIdentityClaim : Prop :=
  ∀ (db : DB) (s : LMState) (now pid lim off : Nat) (ip : String) (t : Task),
    ip ≠ "" →
    (get_locked_task db s now pid none (some ip) none lim off .priority_0 true).1 =
      Except.ok (some [t]) →
    ∀ tr ∈ db.task_runs, tr.project_id = pid → tr.user_ip = some ip → tr.task_id ≠ t.id

/-- Claim C4 formalised as stated: whenever user_id is set, exclusion is
computed against TaskRuns with that user_id regardless of the other fields. -/
def userIdPrecedenceClaim : Prop :=
  ∀ (db : DB) (pid u : Nat) (uip euid : Option String) (lim off : Nat)
    (ob : OrderBy) (dsc : Bool) (t : Task),
    u ≠ 0 →
    t ∈ get_candidate_task_ids db pid (some u) uip euid lim off ob dsc →
    ∀ tr ∈ db.task_runs, tr.project_id = pid → tr.user_id = some u → tr.task_id ≠ t.id

/-- Claim C5 formalised as stated: the caller-supplied limit and offset are
never used for the final selection of the incremental policy. -/
def incrementalIgnoresPagingClaim : Prop :=
  ∀ (db : DB) (pid : Nat) (uid : Option Nat) (uip euid : Option String)
    (off lim off2 lim2 : Nat) (ob : OrderBy) (dsc : Bool) (rr : Nat → Nat),
    get_incremental_task db pid uid uip euid off lim ob dsc rr =
      get_incremental_task db pid uid uip euid off2 lim2 ob dsc rr

/-- Two-task project used by several concrete evaluations. -/
def twoTaskDB : DB :=
  ⟨[], [⟨1, 1, "ongoing", 1, 10, 0, [], []⟩, ⟨2, 1, "ongoing", 1, 5, 0, [], []⟩], [], []⟩

/-- One ongoing task attempted anonymously from ip 1.2.3.4. -/
def anonAttemptDB : DB :=
  ⟨[], [⟨1, 1, "ongoing", 2, 0, 0, [], []⟩],
    [⟨1, 1, 1, none, some "1.2.3.4", none, 0, "a"⟩], []⟩

/-- One ongoing task attempted by registered user 5. -/
def userAttemptDB : DB :=
  ⟨[], [⟨1, 1, "ongoing", 1, 0, 0, [], []⟩],
    [⟨1, 1, 1, some 5, none, none, 0, "a"⟩], []⟩

/-- Two tasks; the higher-priority one already has its single answer from user 2. -/
def quotaFullDB : DB :=
  ⟨[], [⟨1, 1, "ongoing", 1, 10, 0, [], []⟩, ⟨2, 1, "ongoing", 1, 5, 0, [], []⟩],
    [⟨1, 1, 1, some 2, none, none, 0, "a"⟩], []⟩

/-- Two tasks; the higher-priority one attempted by registered user 7. -/
def user7DB : DB :=
  ⟨[], [⟨1, 1, "ongoing", 1, 10, 0, [], []⟩, ⟨2, 1, "ongoing", 1, 5, 0, [], []⟩],
    [⟨1, 1, 1, some 7, none, none, 0, "a"⟩], []⟩

/-- Two tasks; the higher-priority one attempted under external uid ex. -/
def externalDB : DB :=
  ⟨[], [⟨1, 1, "ongoing", 1, 10, 0, [], []⟩, ⟨2, 1, "ongoing", 1, 5, 0, [], []⟩],
    [⟨1, 1, 1, none, none, some "ex", 0, "a"⟩], []⟩

/-- Two tasks; the higher-priority one attempted from the default ip. -/
def defaultIpDB : DB :=
  ⟨[], [⟨1, 1, "ongoing", 1, 10, 0, [], []⟩, ⟨2, 1, "ongoing", 1, 5, 0, [], []⟩],
    [⟨1, 1, 1, none, some "127.0.0.1", none, 0, "a"⟩], []⟩

/-- A project that disallows anonymous contributors. -/
def noAnonDB : DB := ⟨[⟨1, false, none⟩], [], [], []⟩

theorem contains_eq_false_iff {α : Type} [BEq α] [LawfulBEq α] {l : List α} {a : α} :
    l.contains a = false ↔ a ∉ l := by
  rw [Bool.eq_false_iff]
  exact not_congr List.elem_iff

theorem mem_insertOrdBy {α : Type} {le : α → α → Bool} {x a : α} {l : List α} :
    a ∈ insertOrdBy le x l ↔ a = x ∨ a ∈ l := by
  induction l with
  | nil => simp [insertOrdBy]
  | cons b l ih =>
    cases h : le x b
    · simp only [insertOrdBy, h, Bool.false_eq_true, if_false, List.mem_cons, ih]
      tauto
    · simp [insertOrdBy, h, List.mem_cons]

theorem mem_insertionSortBy {α : Type} {le : α → α → Bool} {a : α} {l : List α} :
    a ∈ insertionSortBy le l ↔ a ∈ l := by
  induction l with
  | nil => simp [insertionSortBy]
  | cons b l ih => simp [insertionSortBy, mem_insertOrdBy, ih]

theorem mem_set_orderby_desc {ob : OrderBy} {dsc : Bool} {l : List Task} {a : Task} :
    a ∈ set_orderby_desc ob dsc l ↔ a ∈ l := by
  cases ob <;> cases dsc <;> simp [set_orderby_desc, mem_insertionSortBy]

theorem mem_candidate_props {db : DB} {pid : Nat} {uid : Option Nat} {uip euid : Option String}
    {lim off : Nat} {ob : OrderBy} {dsc : Bool} {t : Task}
    (h : t ∈ get_candidate_task_ids db pid uid uip euid lim off ob dsc) :
    t ∈ db.tasks ∧ t.project_id = pid ∧ t.state ≠ "completed" ∧
      ∀ tr ∈ db.task_runs, candidateSubquery pid uid uip euid tr = true → tr.task_id ≠ t.id := by
  unfold get_candidate_task_ids at h
  have h1 := (List.drop_sublist _ _).subset ((List.take_sublist _ _).subset h)
  rw [mem_set_orderby_desc, List.mem_filter] at h1
  obtain ⟨hmem, hpred⟩ := h1
  simp only [Bool.and_eq_true, Bool.not_eq_true', beq_iff_eq, bne_iff_ne] at hpred
  obtain ⟨⟨hcont, hproj⟩, hstate⟩ := hpred
  refine ⟨hmem, hproj, hstate, ?_⟩
  intro tr htr hsub heq
  exact (contains_eq_false_iff.mp hcont)
    (List.mem_map.mpr ⟨tr, List.mem_filter.mpr ⟨htr, hsub⟩, heq⟩)

theorem candidateSubquery_eq_channel (pid : Nat) (uid : Option Nat) (uip euid : Option String)
    (tr : TaskRun) :
    candidateSubquery pid uid uip euid tr =
      (tr.project_id == pid && attemptedBy (selChannel uid uip euid) tr) := by
  have h127 : truthyS (some "127.0.0.1") = true := by decide
  by_cases h1 : (truthyN uid && !truthyS uip && !truthyS euid) = true
  · cases uid with
    | none => simp [truthyN] at h1
    | some u => simp [candidateSubquery, selChannel, attemptedBy, h1]
  · by_cases hts : truthyS uip = true
    · by_cases hte : truthyS euid = true
      · cases euid with
        | none => simp [truthyS] at hte
        | some e => simp [candidateSubquery, selChannel, attemptedBy, h1, hts, hte]
      · cases uip with
        | none => simp [truthyS] at hts
        | some ip =>
          have hte2 : truthyS euid = false := Bool.eq_false_iff.mpr hte
          simp [candidateSubquery, selChannel, attemptedBy, h1, hts, hte2]
    · have hts2 : truthyS uip = false := Bool.eq_false_iff.mpr hts
      by_cases hte : truthyS euid = true
      · cases euid with
        | none => simp [truthyS] at hte
        | some e => simp [candidateSubquery, selChannel, attemptedBy, h1, hts2, hte, h127]
      · have hte2 : truthyS euid = false := Bool.eq_false_iff.mpr hte
        have hn : truthyN uid = false := by
          cases h : truthyN uid
          · rfl
          · exact absurd (by simp [h, hts2, hte2]) h1
        simp [candidateSubquery, selChannel, attemptedBy, hn, hts2, hte2, h127]

theorem candidate_excludes_channel {db : DB} {pid : Nat} {uid : Option Nat}
    {uip euid : Option String} {lim off : Nat} {ob : OrderBy} {dsc : Bool} {t : Task}
    (ht : t ∈ get_candidate_task_ids db pid uid uip euid lim off ob dsc)
    {tr : TaskRun} (htr : tr ∈ db.task_runs) (hp : tr.project_id = pid)
    (ha : attemptedBy (selChannel uid uip euid) tr = true) : tr.task_id ≠ t.id := by
  obtain ⟨-, -, -, h4⟩ := mem_candidate_props ht
  exact h4 tr htr (by rw [candidateSubquery_eq_channel]; simp [hp, ha])

theorem selChannel_identity {i : Identity} (h : wfIdentity i) :
    selChannel (identityArgs i).1 (identityArgs i).2.1 (identityArgs i).2.2 = i := by
  cases i with
  | registered u =>
    have hu : (u != 0) = true := bne_iff_ne.mpr h
    simp [selChannel, identityArgs, truthyN, truthyS, hu]
  | anonymous ip =>
    have hip : (ip != "") = true := bne_iff_ne.mpr h
    simp [selChannel, identityArgs, truthyN, truthyS, hip]
  | external e =>
    have he : (e != "") = true := bne_iff_ne.mpr h
    simp [selChannel, identityArgs, truthyN, truthyS, he]

theorem mem_lockedCandidates_excl {db : DB} {pid : Nat} {uid : Option Nat}
    {row : Nat × Nat × Int} (h : row ∈ lockedCandidates db pid uid) :
    ∀ tr ∈ db.task_runs, tr.project_id = pid → sqlEqN tr.user_id uid = true →
      tr.task_id ≠ row.1 := by
  unfold lockedCandidates at h
  obtain ⟨t, ht, hrow⟩ := List.mem_map.mp h
  have h1 := mem_insertionSortBy.mp ((List.take_sublist _ _).subset ht)
  rw [List.mem_filter] at h1
  obtain ⟨hmem, hpred⟩ := h1
  simp only [Bool.and_eq_true, Bool.not_eq_true'] at hpred
  obtain ⟨⟨hany, hproj⟩, hstate⟩ := hpred
  rw [List.any_eq_false] at hany
  intro tr htr hp hsq heq
  apply hany tr htr
  rw [← hrow] at heq
  simp only [beq_iff_eq, Bool.and_eq_true]
  exact ⟨⟨hp, hsq⟩, heq⟩

theorem holdersOf_mono (s : LMState) (k : String) {t t2 : Nat} (h : t ≤ t2) :
    holdersOf s k t2 ⊆ holdersOf s k t := by
  intro x hx
  simp only [holdersOf, List.mem_toFinset, List.mem_map, List.mem_filter,
    Bool.and_eq_true, beq_iff_eq, decide_eq_true_eq] at hx ⊢
  obtain ⟨l, ⟨hl, hk, hex⟩, hh⟩ := hx
  exact ⟨l, ⟨hl, hk, lt_of_le_of_lt h hex⟩, hh⟩

theorem holdersOf_cons_subset (a : Lease) (ls : List Lease) (k : String) (t : Nat) :
    holdersOf ⟨a :: ls⟩ k t ⊆ insert a.holder (holdersOf ⟨ls⟩ k t) := by
  intro x hx
  simp only [holdersOf, List.mem_toFinset, List.mem_map, List.mem_filter,
    Finset.mem_insert] at hx ⊢
  obtain ⟨l, ⟨hl, hp⟩, hh⟩ := hx
  rcases List.mem_cons.mp hl with h | h
  · subst h; exact Or.inl hh.symm
  · exact Or.inr ⟨l, ⟨h, hp⟩, hh⟩

theorem holdersOf_filter_subset (p : Lease → Bool) (ls : List Lease) (k : String) (t : Nat) :
    holdersOf ⟨ls.filter p⟩ k t ⊆ holdersOf ⟨ls⟩ k t := by
  intro x hx
  simp only [holdersOf, List.mem_toFinset, List.mem_map, List.mem_filter] at hx ⊢
  obtain ⟨l, ⟨⟨hl, hpl⟩, hp2⟩, hh⟩ := hx
  exact ⟨l, ⟨hl, hp2⟩, hh⟩

theorem lm_acquire_inv {k : String} {Q : Nat} {s : LMState} {t0 te : Nat} {ident : Option Nat}
    (h0 : t0 ≤ te)
    (hInv : ∀ t, t0 ≤ t → (holdersOf s k t).card ≤ Q) :
    ∀ t, te ≤ t → (holdersOf (lm_acquire_lock s te k ident (Q : Int)).2 k t).card ≤ Q := by
  intro t ht
  unfold lm_acquire_lock
  by_cases hmem : ident ∈ holdersOf s k te
  · rw [if_pos hmem]
    have h1 : holdersOf ⟨⟨k, ident, te + TIMEOUT⟩ ::
        s.leases.filter (fun l => !(l.key == k && l.holder == ident))⟩ k t ⊆
        insert ident (holdersOf s k te) := by
      intro x hx
      rcases Finset.mem_insert.mp (holdersOf_cons_subset _ _ _ _ hx) with h | h
      · exact Finset.mem_insert.mpr (Or.inl h)
      · exact Finset.mem_insert.mpr
          (Or.inr (holdersOf_mono s k ht (holdersOf_filter_subset _ _ _ _ h)))
    calc (holdersOf _ k t).card ≤ (insert ident (holdersOf s k te)).card :=
          Finset.card_le_card h1
      _ = (holdersOf s k te).card := by rw [Finset.insert_eq_self.mpr hmem]
      _ ≤ Q := hInv te h0
  · rw [if_neg hmem]
    by_cases hcard : ((holdersOf s k te).card : Int) < (Q : Int)
    · rw [if_pos hcard]
      have h1 : holdersOf ⟨⟨k, ident, te + TIMEOUT⟩ :: s.leases⟩ k t ⊆
          insert ident (holdersOf s k te) := by
        intro x hx
        rcases Finset.mem_insert.mp (holdersOf_cons_subset _ _ _ _ hx) with h | h
        · exact Finset.mem_insert.mpr (Or.inl h)
        · exact Finset.mem_insert.mpr (Or.inr (holdersOf_mono s k ht h))
      have h2 : (holdersOf s k te).card < Q := by exact_mod_cast hcard
      calc (holdersOf _ k t).card ≤ (insert ident (holdersOf s k te)).card :=
            Finset.card_le_card h1
        _ ≤ (holdersOf s k te).card + 1 := Finset.card_insert_le _ _
        _ ≤ Q := h2
    · rw [if_neg hcard]
      exact hInv t (le_trans h0 (le_trans ht (le_refl t)) |>.trans (le_refl t) |>.trans (le_refl t))

theorem runAcquires_inv {k : String} {Q : Nat} :
    ∀ (evs : List (Nat × Option Nat)) (s : LMState) (t0 : Nat),
      List.Pairwise (fun a b => a.1 ≤ b.1) evs →
      (∀ e ∈ evs, t0 ≤ e.1) →
      (∀ t, t0 ≤ t → (holdersOf s k t).card ≤ Q) →
      ∀ t, t0 ≤ t → (∀ e ∈ evs, e.1 ≤ t) →
        (holdersOf (runAcquires k (Q : Int) evs s) k t).card ≤ Q := by
  intro evs
  induction evs with
  | nil => intro s t0 _ _ hInv t ht _; exact hInv t ht
  | cons e evs ih =>
    intro s t0 hpw hlo hInv t ht hhi
    have he0 : t0 ≤ e.1 := hlo e (List.mem_cons_self e evs)
    have hInv2 := @lm_acquire_inv k Q s t0 e.1 e.2 he0 hInv
    show (holdersOf (runAcquires k (Q : Int) evs (lm_acquire_lock s e.1 k e.2 (Q : Int)).2) k t).card ≤ Q
    exact ih _ e.1 (List.pairwise_cons.mp hpw).2 (fun x hx => (List.pairwise_cons.mp hpw).1 x hx)
      hInv2 t (hhi e (List.mem_cons_self e evs)) (fun x hx => hhi x (List.mem_cons_of_mem e hx))

/-- Claim C1 (spec-modelled lock manager): along any trace of atomic acquire
calls against the single lock key of a (project, task) pair, all with quota Q
and nondecreasing call times, the number of distinct identities holding a
non-expired lease on that key never exceeds Q — at any point of the trace and
at any instant at or after the calls made so far. -/
theorem lock_quota_invariant (pid tid Q : Nat) (evs pre post : List (Nat × Option Nat))
    (hsplit : evs = pre ++ post)
    (hsorted : List.Pairwise (fun a b => a.1 ≤ b.1) evs)
    (t : Nat) (ht : ∀ e ∈ pre, e.1 ≤ t) :
    (holdersOf (runAcquires (get_key pid tid) (Q : Int) pre emptyLM) (get_key pid tid) t).card ≤ Q := by
  have hpre : List.Pairwise (fun a b => a.1 ≤ b.1) pre := by
    subst hsplit; exact (List.pairwise_append.mp hsorted).1
  have hinit : ∀ u, 0 ≤ u → (holdersOf emptyLM (get_key pid tid) u).card ≤ Q := by
    intro u _
    simp [holdersOf, emptyLM]
  exact runAcquires_inv pre emptyLM 0 hpre (fun e _ => Nat.zero_le _) hinit t (Nat.zero_le t) ht

theorem lock_quota_invariant_witness :
    (holdersOf (runAcquires (get_key 1 1) ((1 : Nat) : Int) [(0, some 1), (1, some 2)] emptyLM)
      (get_key 1 1) 1).card ≤ 1 :=
  lock_quota_invariant 1 1 1 [(0, some 1), (1, some 2)] [(0, some 1), (1, some 2)] [] rfl
    (by decide) 1 (by decide)

theorem lockedLoop_get (db : DB) (pid : Nat) (uid : Option Nat) (now : Nat) :
    ∀ (rows : List (Nat × Nat × Int)) (offset skipped : Nat) (s : LMState),
      skipped ≤ offset →
      (lockedLoop db pid uid offset now rows skipped s).1 =
        Except.ok (((lockSuccesses pid uid now rows s).get? (offset - skipped)).map
          (taskById db)) := by
  intro rows
  induction rows with
  | nil => intro offset skipped s _; simp [lockedLoop, lockSuccesses]
  | cons row rest ih =>
    intro offset skipped s hle
    obtain ⟨task_id, taskcount, n_answers⟩ := row
    simp only [lockedLoop, lockSuccesses]
    by_cases hr : (acquire_lock pid task_id uid (n_answers - (taskcount : Int)) s now).1 = true
    · rw [if_pos hr, if_pos hr]
      by_cases hsk : skipped = offset
      · subst hsk
        simp
      · have hne : (skipped == offset) = false := by simp [hsk]
        rw [hne]
        simp only [Bool.false_eq_true, if_false]
        have hlt : skipped + 1 ≤ offset := by omega
        rw [ih offset (skipped + 1) _ hlt]
        have hos : offset - skipped = (offset - (skipped + 1)) + 1 := by omega
        rw [hos, List.get?_cons_succ]
    · rw [if_neg hr, if_neg hr]
      exact ih offset skipped _ hle

/-- Claim C2 counterexample: at a concrete input where the first candidate
fails acquisition because its quota is exhausted and the second succeeds, with
offset 1, the source loop returns no task, while the loop described by the
claim (skipped tallies quota failures) returns the second task. -/
theorem locked_skip_count_cex :
    (get_locked_task quotaFullDB emptyLM 0 1 (some 1) none none 10 1 .priority_0 true).1 =
      Except.ok none ∧
    lockedLoopClaim quotaFullDB 1 (some 1) 1 0 (lockedCandidates quotaFullDB 1 (some 1)) 0
      emptyLM = some [⟨2, 1, "ongoing", 1, 5, 0, [], []⟩] :=
  ⟨rfl, by decide⟩

/-- Claim C2 as amended: for every valid offset (at most 2), the locked policy
returns the task of the (offset+1)-th successful lock acquisition along the
candidate rows — failed acquisitions are passed over without being counted,
successful acquisitions below the offset are skipped and counted, and when
fewer than offset+1 candidates acquire successfully the policy returns a
no-task result distinct from an error. -/
theorem locked_skip_semantics (db : DB) (s : LMState) (now pid : Nat) (uid : Option Nat)
    (uip euid : Option String) (lim offset : Nat) (ob : OrderBy) (dsc : Bool)
    (hoff : offset ≤ 2) :
    (get_locked_task db s now pid uid uip euid lim offset ob dsc).1 =
      Except.ok (((lockSuccesses pid uid now (lockedCandidates db pid uid) s).get? offset).map
        (taskById db)) := by
  unfold get_locked_task
  rw [if_neg (by omega)]
  have h := lockedLoop_get db pid uid now (lockedCandidates db pid uid) offset 0 s (Nat.zero_le _)
  simpa using h

theorem locked_skip_semantics_witness :
    (get_locked_task quotaFullDB emptyLM 0 1 (some 1) none none 10 1 .priority_0 true).1 =
      Except.ok (((lockSuccesses 1 (some 1) 0 (lockedCandidates quotaFullDB 1 (some 1))
        emptyLM).get? 1).map (taskById quotaFullDB)) :=
  locked_skip_semantics quotaFullDB emptyLM 0 1 (some 1) none none 10 1 .priority_0 true
    (by decide)

/-- Claim C6: an offset above 2 is rejected by the locked policy as an invalid
request before any candidate query or lock acquisition: the result is the
error case and the lock store is returned unchanged. -/
theorem locked_offset_reject (db : DB) (s : LMState) (now pid : Nat) (uid : Option Nat)
    (uip euid : Option String) (lim off : Nat) (ob : OrderBy) (dsc : Bool) (h : off > 2) :
    get_locked_task db s now pid uid uip euid lim off ob dsc = (Except.error (), s) := by
  unfold get_locked_task
  rw [if_pos h]

theorem locked_offset_reject_witness :
    get_locked_task twoTaskDB emptyLM 0 1 (some 1) none none 10 3 .priority_0 true =
      (Except.error (), emptyLM) :=
  locked_offset_reject twoTaskDB emptyLM 0 1 (some 1) none none 10 3 .priority_0 true
    (by decide)

/-- Claim C3 counterexample: the locked policy does not exclude tasks already
attempted by the requesting anonymous ip identity — at the concrete store
anonAttemptDB, the task attempted from ip 1.2.3.4 is returned to that very
identity, refuting the claim as stated. -/
theorem exclusion_locked_cex : ¬ lockedExcludesExactIdentityClaim := by
  intro h
  exact (h anonAttemptDB emptyLM 0 1 10 0 "1.2.3.4" ⟨1, 1, "ongoing", 2, 0, 0, [], []⟩
    (by decide) rfl ⟨1, 1, 1, none, some "1.2.3.4", none, 0, "a"⟩ (by decide) rfl rfl) rfl

/-- Claim C3 as amended: the shared Candidate Selector never returns a task
already attempted by the requesting identity when that identity is a
well-formed single channel (registered id, non-empty anonymous ip, or
non-empty external uid); the locked policy's own candidate query, by
contrast, only excludes TaskRuns whose non-null user_id equals the
requester's user_id. -/
theorem exclusion_by_identity :
    (∀ (db : DB) (pid : Nat) (i : Identity) (lim off : Nat) (ob : OrderBy) (dsc : Bool)
       (t : Task), wfIdentity i →
       t ∈ get_candidate_task_ids db pid (identityArgs i).1 (identityArgs i).2.1
         (identityArgs i).2.2 lim off ob dsc →
       ∀ tr ∈ db.task_runs, tr.project_id = pid → attemptedBy i tr = true →
         tr.task_id ≠ t.id) ∧
    (∀ (db : DB) (pid u : Nat) (row : Nat × Nat × Int),
       row ∈ lockedCandidates db pid (some u) →
       ∀ tr ∈ db.task_runs, tr.project_id = pid → tr.user_id = some u →
         tr.task_id ≠ row.1) := by
  constructor
  · intro db pid i lim off ob dsc t hwf ht tr htr hp ha
    apply candidate_excludes_channel ht htr hp
    rw [selChannel_identity hwf]
    exact ha
  · intro db pid u row hrow tr htr hp hu
    exact mem_lockedCandidates_excl hrow tr htr hp (by simp [sqlEqN, hu])

theorem exclusion_by_identity_witness :
    (⟨1, 1, 1, some 7, none, none, 0, "a"⟩ : TaskRun).task_id ≠
      (⟨2, 1, "ongoing", 1, 5, 0, [], []⟩ : Task).id :=
  exclusion_by_identity.1 user7DB 1 (.registered 7) 5 0 .id false
    ⟨2, 1, "ongoing", 1, 5, 0, [], []⟩ (show (7 : Nat) ≠ 0 by decide) (by decide)
    ⟨1, 1, 1, some 7, none, none, 0, "a"⟩ (by decide) rfl rfl

/-- Claim C4 counterexample: with user_id 5 set but an external uid also
supplied, the candidate query does not exclude the task this user already
attempted — exclusion is computed against the external uid, refuting the
claim that user-id takes priority whenever present. -/
theorem user_id_precedence_cex : ¬ userIdPrecedenceClaim := by
  intro h
  exact (h userAttemptDB 1 5 none (some "x") 1 0 .id false ⟨1, 1, "ongoing", 1, 0, 0, [], []⟩
    (by decide) (by decide) ⟨1, 1, 1, some 5, none, none, 0, "a"⟩ (by decide) rfl rfl) rfl

/-- Claim C4 as amended: the exclusion channel is chosen by the source branch
order — user-id only when it is truthy and both user_ip and external_uid are
falsy; a truthy external_uid otherwise takes priority over ip (with a falsy
ip defaulted to 127.0.0.1) — and TaskRun exclusion is computed against
exactly that channel. -/
theorem channel_precedence :
    (∀ (uid : Option Nat) (uip euid : Option String),
       truthyN uid = true → truthyS uip = false → truthyS euid = false →
       selChannel uid uip euid = .registered (uid.getD 0)) ∧
    (∀ (uid : Option Nat) (uip euid : Option String),
       truthyS euid = true → selChannel uid uip euid = .external (euid.getD "")) ∧
    (∀ (db : DB) (pid : Nat) (uid : Option Nat) (uip euid : Option String)
       (lim off : Nat) (ob : OrderBy) (dsc : Bool) (t : Task),
       t ∈ get_candidate_task_ids db pid uid uip euid lim off ob dsc →
       ∀ tr ∈ db.task_runs, tr.project_id = pid →
         attemptedBy (selChannel uid uip euid) tr = true → tr.task_id ≠ t.id) := by
  refine ⟨?_, ?_, ?_⟩
  · intro uid uip euid h1 h2 h3
    simp [selChannel, h1, h2, h3]
  · intro uid uip euid he
    simp [selChannel, he]
  · intro db pid uid uip euid lim off ob dsc t ht tr htr hp ha
    exact candidate_excludes_channel ht htr hp ha

theorem channel_precedence_witness :
    (⟨1, 1, 1, none, none, some "ex", 0, "a"⟩ : TaskRun).task_id ≠
      (⟨2, 1, "ongoing", 1, 5, 0, [], []⟩ : Task).id :=
  channel_precedence.2.2 externalDB 1 (some 9) none (some "ex") 5 0 .id false
    ⟨2, 1, "ongoing", 1, 5, 0, [], []⟩ (by decide)
    ⟨1, 1, 1, none, none, some "ex", 0, "a"⟩ (by decide) rfl (by decide)

/-- Claim C5 counterexample: the caller-supplied offset changes which task the
incremental policy returns (with the random draw held fixed), refuting the
claim that limit and offset are never used for the final selection and that
candidate retrieval is fixed at an internal bound. -/
theorem incremental_paging_cex : ¬ incrementalIgnoresPagingClaim := by
  intro h
  exact absurd (h twoTaskDB 1 none none none 0 1 1 1 .id false (fun _ => 0)) (by decide)

/-- Claim C5 as amended: the incremental policy retrieves candidates with the
caller-supplied limit and offset, forcing priority-descending order and
ignoring the caller's orderby and direction; it returns an empty result
exactly when that candidate set is empty, and otherwise exactly one task —
the candidate at the index drawn over the retrieved set, with the latest
answer attached. -/
theorem incremental_select (db : DB) (pid : Nat) (uid : Option Nat) (uip euid : Option String)
    (off lim : Nat) (ob : OrderBy) (dsc : Bool) (rr : Nat → Nat) :
    (∀ (ob2 : OrderBy) (dsc2 : Bool),
      get_incremental_task db pid uid uip euid off lim ob dsc rr =
        get_incremental_task db pid uid uip euid off lim ob2 dsc2 rr) ∧
    (get_incremental_task db pid uid uip euid off lim ob dsc rr = none ↔
      get_candidate_task_ids db pid uid uip euid lim off .priority_0 true = []) ∧
    (∀ i : Nat, rr (get_candidate_task_ids db pid uid uip euid lim off .priority_0 true).length = i →
      get_candidate_task_ids db pid uid uip euid lim off .priority_0 true ≠ [] →
      get_incremental_task db pid uid uip euid off lim ob dsc rr =
        some [attachLastAnswer db
          ((get_candidate_task_ids db pid uid uip euid lim off .priority_0 true).getD i
            default)]) := by
  refine ⟨fun ob2 dsc2 => rfl, ?_, ?_⟩
  · unfold get_incremental_task
    cases h : get_candidate_task_ids db pid uid uip euid lim off .priority_0 true with
    | nil => simp
    | cons a l => simp
  · intro i hi hne
    unfold get_incremental_task
    rw [← hi]
    cases h : get_candidate_task_ids db pid uid uip euid lim off .priority_0 true with
    | nil => exact absurd h hne
    | cons a l => simp

theorem incremental_select_witness :
    get_incremental_task twoTaskDB 1 none none none 0 1 .id false (fun _ => 0) =
      some [attachLastAnswer twoTaskDB
        ((get_candidate_task_ids twoTaskDB 1 none none none 1 0 .priority_0 true).getD 0
          default)] :=
  (incremental_select twoTaskDB 1 none none none 0 1 .id false (fun _ => 0)).2.2 0 rfl
    (by decide)

/-- Claim C7: the new-task endpoint serialises zero available tasks (no result
or an empty list) as an empty JSON object, exactly one task as that single
task object (never a one-element array), and more than one task as a JSON
array of the task objects. -/
theorem new_task_encoding :
    new_task_response none = Json.obj [] ∧
    new_task_response (some []) = Json.obj [] ∧
    (∀ t : Task, new_task_response (some [t]) = dictize t ∧
      new_task_response (some [t]) ≠ Json.arr [dictize t]) ∧
    (∀ (t : Task) (ts : List Task), ts ≠ [] →
      new_task_response (some (t :: ts)) = Json.arr (dictize t :: ts.map dictize)) := by
  refine ⟨rfl, rfl, ?_, ?_⟩
  · intro t
    exact ⟨rfl, fun h => Json.noConfusion h⟩
  · intro t ts h
    cases ts with
    | nil => exact absurd rfl h
    | cons b l => rfl

theorem new_task_encoding_witness :
    new_task_response (some [⟨1, 1, "ongoing", 1, 10, 0, [], []⟩]) =
      dictize ⟨1, 1, "ongoing", 1, 10, 0, [], []⟩ ∧
    new_task_response (some [⟨1, 1, "ongoing", 1, 10, 0, [], []⟩,
        ⟨2, 1, "ongoing", 1, 5, 0, [], []⟩]) =
      Json.arr [dictize ⟨1, 1, "ongoing", 1, 10, 0, [], []⟩,
        dictize ⟨2, 1, "ongoing", 1, 5, 0, [], []⟩] :=
  ⟨(new_task_encoding.2.2.1 ⟨1, 1, "ongoing", 1, 10, 0, [], []⟩).1,
   new_task_encoding.2.2.2 ⟨1, 1, "ongoing", 1, 10, 0, [], []⟩
     [⟨2, 1, "ongoing", 1, 5, 0, [], []⟩] (by decide)⟩

/-- Claim C8: when the project disallows anonymous contributors and the
requester is anonymous, task retrieval returns — through the normal task
channel, without raising — a synthetic informational task whose info payload
carries the explanatory error message. -/
theorem anonymous_synthetic_task (db : DB) (pid : Nat) (anon : Bool) (addr : String)
    (cuid : Nat) (jwtOk : Bool) (ea : Option String) (la oa : Option Nat)
    (oba : Option OrderBy) (da : Option Bool) (p : Project)
    (hp : db.projects.find? (fun q => q.id == pid) = some p)
    (hallow : p.allow_anonymous_contributors = false)
    (hanon : anon = true) :
    retrieve_new_task db pid anon addr cuid jwtOk ea la oa oba da =
      .tasks [{ (default : Task) with
        info := [("error", "This project does not allow anonymous contributors")] }] := by
  unfold retrieve_new_task
  rw [hp]
  simp [hallow, hanon]

theorem anonymous_synthetic_task_witness :
    retrieve_new_task noAnonDB 1 true "1.2.3.4" 0 true none none none none none =
      .tasks [{ (default : Task) with
        info := [("error", "This project does not allow anonymous contributors")] }] :=
  anonymous_synthetic_task noAnonDB 1 true "1.2.3.4" 0 true none none none none none
    ⟨1, false, none⟩ rfl rfl rfl

/-- Claim C9: with a completely empty requester identity, candidate selection
in both the shared Candidate Selector and the breadth-first policy behaves
exactly as if the ip 127.0.0.1 had been supplied — the exclusion filter is
not skipped, and any TaskRun recorded under that shared default ip excludes
its task for every such requester. -/
theorem empty_identity_default_ip :
    ∀ (db : DB) (pid lim off : Nat) (ob : OrderBy) (dsc : Bool),
      get_candidate_task_ids db pid none none none lim off ob dsc =
        get_candidate_task_ids db pid none (some "127.0.0.1") none lim off ob dsc ∧
      get_breadth_first_task db pid none none none off lim ob dsc =
        get_breadth_first_task db pid none (some "127.0.0.1") none off lim ob dsc ∧
      ∀ t ∈ get_candidate_task_ids db pid none none none lim off ob dsc,
        ∀ tr ∈ db.task_runs, tr.project_id = pid → tr.user_ip = some "127.0.0.1" →
          tr.task_id ≠ t.id := by
  intro db pid lim off ob dsc
  refine ⟨rfl, rfl, ?_⟩
  intro t ht tr htr hp hip
  apply candidate_excludes_channel ht htr hp
  rw [show selChannel none none none = .anonymous "127.0.0.1" from rfl]
  simp [attemptedBy, hip]

theorem empty_identity_default_ip_witness :
    (⟨1, 1, 1, none, some "127.0.0.1", none, 0, "a"⟩ : TaskRun).task_id ≠
      (⟨2, 1, "ongoing", 1, 5, 0, [], []⟩ : Task).id :=
  (empty_identity_default_ip defaultIpDB 1 5 0 .id false).2.2
    ⟨2, 1, "ongoing", 1, 5, 0, [], []⟩ (by decide)
    ⟨1, 1, 1, none, some "127.0.0.1", none, 0, "a"⟩ (by decide) rfl rfl

/-- Claim C10: the locked policy identifies the requester solely by user_id —
its result is invariant under the user_ip and external_uid arguments (so all
anonymous requesters are one and the same lock holder, the user_id passed to
the lock calls being absent for each of them), and with an absent user_id its
candidate query excludes nothing: the candidate ids are exactly the ordered
incomplete tasks of the project, regardless of any anonymous or external
TaskRuns. -/
theorem locked_uses_user_id_only :
    (∀ (db : DB) (s : LMState) (now pid : Nat) (uid : Option Nat)
       (uip1 euid1 uip2 euid2 : Option String) (lim off : Nat) (ob : OrderBy) (dsc : Bool),
       get_locked_task db s now pid uid uip1 euid1 lim off ob dsc =
         get_locked_task db s now pid uid uip2 euid2 lim off ob dsc) ∧
    (∀ (db : DB) (pid : Nat),
       (lockedCandidates db pid none).map (fun r => r.1) =
         ((insertionSortBy lockedLe (db.tasks.filter (fun t =>
           t.project_id == pid && t.state != "completed"))).take 10).map (fun t => t.id)) := by
  constructor
  · intro db s now pid uid uip1 euid1 uip2 euid2 lim off ob dsc
    rfl
  · intro db pid
    unfold lockedCandidates
    have hfil : (db.tasks.filter (fun t =>
        !(db.task_runs.any (fun tr =>
          tr.project_id == pid && sqlEqN tr.user_id none && tr.task_id == t.id)) &&
        t.project_id == pid && t.state != "completed")) =
        db.tasks.filter (fun t => t.project_id == pid && t.state != "completed") := by
      apply List.filter_congr
      intro t _
      have hany : (db.task_runs.any (fun tr =>
          tr.project_id == pid && sqlEqN tr.user_id none && tr.task_id == t.id)) = false :=
        List.any_eq_false.mpr (fun tr _ => by cases h : tr.user_id <;> simp [sqlEqN, h])
      rw [hany]
      simp
    rw [hfil, List.map_map]
    rfl

end Pybossa
